import Mathlib

/-! Ziplinee Bitbucket status extension

A shallow embedding of `main.go` and `bitbucketApiClient.go`.

* Go `string` and `[]byte` values are Lean strings; a nil byte slice is `""`.
* A Go `error` is its message; the nil error is `none`.
* `fmt.Sprintf` with `%v` verbs applied to strings is concatenation.
* The package-level flag variables are the record `Flags`, passed explicitly.
* The libraries the program calls (`encoding/json`, `net/http`, the `pester`
  client, the file system) are the fields of `Env`.
* Side effects (requests handed to the HTTP client, transport attempts, lines
  written with `log.Printf`) are collected in `Effects`.
-/

namespace Ziplinee

/-- A Go `error` value, represented by its message. -/
abbrev Error := String

/-- The function `strings.HasSuffix`: `s` is at least as long as `suffix` and
its tail of that length equals `suffix`. -/
def HasSuffix (s suffix : String) : Bool :=
  decide (suffix.length ≤ s.length) &&
    (s.data.drop (s.length - suffix.length) == suffix.data)

/-! ## Data model -/

/-- The flag variables of `main.go` (the `kingpin` flags after parsing). -/
structure Flags where
  gitRepoSource : String
  gitRepoFullname : String
  gitRevision : String
  ziplineeBuildStatus : String
  statusOverride : String
  ciBaseURL : String
  ziplineeBuildID : String
  ziplineeBuildVersion : String
  releaseName : String
  releaseAction : String
  apiTokenPath : String
  deriving DecidableEq, Repr

/-- The struct `buildStatusRequestBody`. -/
structure buildStatusRequestBody where
  State : String
  Key : String
  Name : String
  URL : String
  Description : String
  deriving DecidableEq, Repr

/-- Modelled from the spec: the nested record of `APITokenCredentials` that
carries the bearer token; the type declaration is not among the source files,
`main` reads `credentials[0].AdditionalProperties.Token`. -/
structure APITokenAdditionalProperties where
  Token : String
  deriving DecidableEq, Repr

/-- Modelled from the spec: a credential record of the injected credentials
file; the type declaration is not among the source files. -/
structure APITokenCredentials where
  AdditionalProperties : APITokenAdditionalProperties
  deriving DecidableEq, Repr

/-- An `http.Header`: the `(key, value)` pairs in the order they were added. -/
abbrev Header := List (String × String)

/-- The method `Header.Add` for a key that is already in canonical form. -/
def Header.Add (h : Header) (key value : String) : Header :=
  h ++ [(key, value)]

/-- The method `Header.Values`: every value stored under `key`. -/
def Header.Values (h : Header) (key : String) : List String :=
  (h.filter (fun kv => kv.1 == key)).map (fun kv => kv.2)

/-- An `http.Request`, by the parts the program sets. `URL` is the text of the
URL that `http.NewRequest` parsed from the string it was given; `Body` is
`none` for a nil reader. -/
structure Request where
  Method : String
  URL : String
  Body : Option String
  Header : Header
  deriving DecidableEq, Repr

/-- A response body stream: the bytes `ioutil.ReadAll` yields from it and the
error it stops with, if any. -/
structure ReadCloser where
  data : String
  err : Option Error
  deriving DecidableEq, Repr

/-- The function `ioutil.ReadAll`. -/
def ReadAll (r : ReadCloser) : String × Option Error :=
  (r.data, r.err)

/-- An `http.Response`, by the parts the program reads. -/
structure Response where
  StatusCode : Int
  Body : ReadCloser
  deriving DecidableEq, Repr

/-- The backoff strategies of the `pester` client; the delay between attempts
is real time and not modelled. -/
inductive BackoffStrategy where
  | DefaultBackoff
  | ExponentialBackoff
  | ExponentialJitterBackoff
  | LinearBackoff
  | LinearJitterBackoff
  deriving DecidableEq, Repr

/-- The fields of `pester.Client` that `callBitbucketAPI` sets. -/
structure Client where
  MaxRetries : Nat
  Backoff : BackoffStrategy
  KeepLog : Bool
  deriving DecidableEq, Repr

/-- The libraries and the machine the program runs against. -/
structure Env where
  /-- The value of `runtime.GOOS`. -/
  GOOS : String
  /-- The function `foundation.FileExists`. -/
  FileExists : String → Bool
  /-- The function `ioutil.ReadFile`. -/
  ReadFile : String → Except Error String
  /-- The function `json.Unmarshal` into `[]APITokenCredentials`. -/
  UnmarshalCredentials : String → Except Error (List APITokenCredentials)
  /-- The function `json.Marshal` on a `buildStatusRequestBody`. -/
  Marshal : buildStatusRequestBody → Except Error String
  /-- What `http.NewRequest` makes of a method and a URL string: the error it
  returns, or the text of the URL it parsed from the string, which is the URL
  the request carries. -/
  NewRequestURL : String → String → Except Error String
  /-- The client `pester.New()` returns. -/
  New : Client
  /-- The method `client.Do`: its result and the number of transport attempts
  it made. -/
  Do : Client → Request → Except Error Response × Nat
  /-- The function `json.Unmarshal` into an empty interface: the error it
  returns, `none` exactly when the bytes are well-formed JSON. -/
  Unmarshal : String → Option Error

/-- The function `http.NewRequest`: the request carries the parsed URL, not
the string it was given. -/
def NewRequest (env : Env) (method url : String) (body : Option String) :
    Except Error Request :=
  match env.NewRequestURL method url with
  | .error e => .error e
  | .ok u => .ok { Method := method, URL := u, Body := body, Header := [] }

/-- What a call does besides returning: the requests handed to `client.Do`,
the number of transport attempts made, and the lines handed to `log.Printf`. -/
structure Effects where
  sent : List Request
  attempts : Nat
  log : List String
  deriving DecidableEq, Repr

/-! ## `bitbucketApiClient.go` -/

/-- Lines 96-118 of `callBitbucketAPI`: serialise `params` when present, create
the client, build the request and add the two headers. -/
def callBitbucketAPI.request (env : Env) (method url : String)
    (params : Option buildStatusRequestBody) (authorizationType token : String) :
    Except Error (Client × Request) :=
  -- convert params to json if they are present
  let requestBody : Except Error (Option String) :=
    match params with
    | some p =>
      match env.Marshal p with
      | .error e => .error e
      | .ok data => .ok (some data)
    | none => .ok none
  match requestBody with
  | .error e => .error e
  | .ok requestBody =>
    -- create client, in order to add headers
    let client : Client :=
      { env.New with
        MaxRetries := 3, Backoff := .ExponentialJitterBackoff, KeepLog := true }
    match NewRequest env method url requestBody with
    | .error e => .error e
    | .ok request =>
      -- add headers
      let header := request.Header.Add "Authorization" (authorizationType ++ " " ++ token)
      let header := header.Add "Content-Type" "application/json"
      .ok (client, { request with Header := header })

/-- The function `callBitbucketAPI`: the returned `(body, err)` and the
effects. -/
def callBitbucketAPI (env : Env) (method url : String)
    (params : Option buildStatusRequestBody) (authorizationType token : String) :
    (String × Option Error) × Effects :=
  match callBitbucketAPI.request env method url params authorizationType token with
  | .error e => (("", some e), { sent := [], attempts := 0, log := [] })
  | .ok (client, request) =>
    -- perform actual request
    match env.Do client request with
    | (.error e, n) => (("", some e), { sent := [request], attempts := n, log := [] })
    | (.ok response, n) =>
      match ReadAll response.Body with
      | (body, some e) => ((body, some e), { sent := [request], attempts := n, log := [] })
      | (body, none) =>
        -- unmarshal json body
        match env.Unmarshal body with
        | some e =>
          ((body, some e),
            { sent := [request], attempts := n,
              log := ["Deserializing response for \x27" ++ url ++
                "\x27 Bitbucket api call failed. Body: " ++ body ++ ". Error: " ++ e] })
        | none =>
          ((body, none),
            { sent := [request], attempts := n,
              log := ["Received successful response for \x27" ++ url ++
                "\x27 Bitbucket api call with status code " ++
                toString response.StatusCode] })

/-- The local `state` of `SetBuildStatus`. -/
def SetBuildStatus.state (status : String) : String :=
  match status with
  | "succeeded" => "SUCCESSFUL"
  | "failed" => "FAILED"
  | "pending" => "INPROGRESS"
  | _ => "SUCCESSFUL"

/-- The local `logsURL` of `SetBuildStatus`. -/
def SetBuildStatus.logsURL (flags : Flags) (repoFullname : String) : String :=
  flags.ciBaseURL ++ "pipelines/" ++ flags.gitRepoSource ++ "/" ++ repoFullname ++
    "/builds/" ++ flags.ziplineeBuildID ++ "/logs"

/-- The local `description` of `SetBuildStatus`. -/
def SetBuildStatus.description (flags : Flags) (status releaseName releaseAction : String) :
    String :=
  if releaseName ≠ "" then
    if releaseAction ≠ "" then
      "Release " ++ flags.ziplineeBuildVersion ++ " to " ++ releaseName ++ " with " ++
        releaseAction ++ " " ++ status ++ "."
    else
      "Release " ++ flags.ziplineeBuildVersion ++ " to " ++ releaseName ++ " " ++ status ++ "."
  else
    "Build version " ++ flags.ziplineeBuildVersion ++ " " ++ status ++ "."

/-- The local `params` of `SetBuildStatus`: the request body. -/
def SetBuildStatus.params (flags : Flags)
    (repoFullname status releaseName releaseAction : String) : buildStatusRequestBody :=
  { State := SetBuildStatus.state status
    Key := "ziplinee"
    Name := "Ziplinee"
    URL := SetBuildStatus.logsURL flags repoFullname
    Description := SetBuildStatus.description flags status releaseName releaseAction }

/-- The URL `SetBuildStatus` posts to. -/
def SetBuildStatus.url (repoFullname gitRevision : String) : String :=
  "https://api.bitbucket.org/2.0/repositories/" ++ repoFullname ++ "/commit/" ++
    gitRevision ++ "/statuses/build"

/-- The method `SetBuildStatus`: the returned `err` and the effects. The
parameter `buildVersion` is not read; the description takes the version from
the flag `ziplineeBuildVersion`. -/
def SetBuildStatus (env : Env) (flags : Flags)
    (accessToken repoFullname gitRevision status _buildVersion releaseName
      releaseAction : String) : Option Error × Effects :=
  let params := SetBuildStatus.params flags repoFullname status releaseName releaseAction
  let r := callBitbucketAPI env "POST" (SetBuildStatus.url repoFullname gitRevision)
    (some params) "Bearer" accessToken
  (r.1.2, { r.2 with log := ("Setting logs url " ++ params.URL) :: r.2.log })

/-! ## `main.go` -/

/-- The local `status` of `main`: the status override when there is one. -/
def main.status (flags : Flags) : String :=
  if flags.statusOverride ≠ "" then flags.statusOverride else flags.ziplineeBuildStatus

/-- The value of `*ciBaseURL` after `main` made sure it ends with a slash. -/
def main.ciBaseURL (ciBaseURL : String) : String :=
  if !HasSuffix ciBaseURL "/" then ciBaseURL ++ "/" else ciBaseURL

/-- The value of `*apiTokenPath` after the adjustment for Windows. -/
def main.apiTokenPath (env : Env) (flags : Flags) : String :=
  if env.GOOS = "windows" then "C:" ++ flags.apiTokenPath else flags.apiTokenPath

/-- The slice `credentials` of `main` once the credentials file, when present,
has been read, or the message and error `main` dies with while reading it. -/
def main.credentials (env : Env) (apiTokenPath : String) :
    Except (String × Option Error) (List APITokenCredentials) :=
  if env.FileExists apiTokenPath then
    match env.ReadFile apiTokenPath with
    | .error _ =>
      .error ("Failed reading credential file at path " ++ apiTokenPath ++ ".", none)
    | .ok credentialsFileContent =>
      match env.UnmarshalCredentials credentialsFileContent with
      | .error e => .error ("Failed unmarshalling injected credentials", some e)
      | .ok credentials => .ok credentials
  else .ok []

/-- How the process ends: `log.Fatal` with a message and possibly an error, or
the end of `main`. -/
inductive Exit where
  | fatal (msg : String) (err : Option Error)
  | finished
  deriving DecidableEq, Repr

/-- The flag variables as `main` leaves them: the base URL ends with a slash
and the credentials path is adjusted for Windows. -/
def main.flags (env : Env) (flags : Flags) : Flags :=
  -- make sure ciBaseURL ends with a slash
  let flags := { flags with ciBaseURL := main.ciBaseURL flags.ciBaseURL }
  -- use mounted credential file if present instead of relying on an envvar
  { flags with apiTokenPath := main.apiTokenPath env flags }

/-- The end of `main`: `log.Fatal` when `SetBuildStatus` returned an error. -/
def main.exit (r : Option Error × Effects) : Exit × Effects :=
  match r with
  | (some err, eff) => (.fatal "Updating Bitbucket build status failed" (some err), eff)
  | (none, eff) => (.finished, eff)

/-- The function `main`, after `kingpin.Parse()` produced `flags`. -/
def main (env : Env) (flags : Flags) : Exit × Effects :=
  -- check if there is a status override
  let status := main.status flags
  let flags := main.flags env flags
  -- get api token from injected credentials
  match main.credentials env flags.apiTokenPath with
  | .error (msg, err) => (.fatal msg err, { sent := [], attempts := 0, log := [] })
  | .ok [] =>
    (.fatal "No credentials have been injected" none, { sent := [], attempts := 0, log := [] })
  | .ok (c :: _) =>
    -- set build status
    main.exit (SetBuildStatus env flags c.AdditionalProperties.Token flags.gitRepoFullname
      flags.gitRevision status flags.ziplineeBuildVersion flags.releaseName
      flags.releaseAction)

/-! ## The retrying client -/

/-- Modelled from the spec: the retry loop of the `pester` client, a library
whose code is not among the source files. Attempt `i` is made; a response ends
the loop; a transport failure is retried while `n` further attempts remain, and
the failure of the last attempt is the result. The pause between attempts is
real time and not modelled. Returns the result and the number of the last
attempt made. -/
def pester.attempt (transport : Nat → Request → Except Error Response) (request : Request) :
    Nat → Nat → Except Error Response × Nat
  | 0, i => (transport i request, i)
  | n + 1, i =>
    match transport i request with
    | .ok response => (.ok response, i)
    | .error _ => pester.attempt transport request n (i + 1)

/-- Modelled from the spec: the method `Do` of the `pester` client, a library
whose code is not among the source files: up to `MaxRetries` attempts in total,
numbered from 1, over a transport that answers attempt `i` on `request` with
`transport i request`. -/
def pester.Do (transport : Nat → Request → Except Error Response) (client : Client)
    (request : Request) : Except Error Response × Nat :=
  pester.attempt transport request (client.MaxRetries - 1) 1

/-- The environment whose HTTP client is the retrying client over `transport`. -/
def Env.withTransport (env : Env) (transport : Nat → Request → Except Error Response) : Env :=
  { env with Do := pester.Do transport }

/-- The environment whose responses have their status code rewritten by `f`. -/
def Env.mapStatusCode (env : Env) (f : Int → Int) : Env :=
  { env with
    Do := fun client request =>
      match env.Do client request with
      | (.ok response, n) => (.ok { response with StatusCode := f response.StatusCode }, n)
      | (.error e, n) => (.error e, n) }

/-- A string ends with exactly one `/`: it ends with `/` and the character
before that final `/`, if any, is not `/`. -/
def EndsWithExactlyOneSlash (s : String) : Prop :=
  HasSuffix s "/" = true ∧ HasSuffix s "//" = false

instance (s : String) : Decidable (EndsWithExactlyOneSlash s) := by
  unfold EndsWithExactlyOneSlash; infer_instance

/-! ## Examples -/

/-- A machine with one credential on disk, a serialiser that writes the five
fields in order, a client that answers every request at the first attempt with
the status `code` and the body `body`, and a JSON check that accepts exactly
the empty object. -/
def exampleEnv (body : String) (code : Int) : Env where
  GOOS := "linux"
  FileExists := fun p => p == "/credentials/bitbucket_api_token.json"
  ReadFile := fun _ => .ok "[...]"
  UnmarshalCredentials := fun _ => .ok [{ AdditionalProperties := { Token := "t0k3n" } }]
  Marshal := fun p =>
    .ok (p.State ++ "|" ++ p.Key ++ "|" ++ p.Name ++ "|" ++ p.URL ++ "|" ++ p.Description)
  NewRequestURL := fun _ url => .ok url
  New := { MaxRetries := 3, Backoff := .DefaultBackoff, KeepLog := false }
  Do := fun _ _ => (.ok { StatusCode := code, Body := { data := body, err := none } }, 1)
  Unmarshal := fun b => if b == "\x7b\x7d" then none else some "invalid character"

/-- The flags of a release run. -/
def exampleFlags : Flags where
  gitRepoSource := "bitbucket.org"
  gitRepoFullname := "ziplineeci/demo"
  gitRevision := "abc123"
  ziplineeBuildStatus := "pending"
  statusOverride := ""
  ciBaseURL := "https://ci.example.com"
  ziplineeBuildID := "42"
  ziplineeBuildVersion := "1.2.3"
  releaseName := "production"
  releaseAction := "rollback"
  apiTokenPath := "/credentials/bitbucket_api_token.json"

/-- The text of a URL with every blank written as `%20`. -/
def escapeBlanks (url : String) : String :=
  String.mk (url.data.flatMap (fun c => if c = ' ' then ['%', '2', '0'] else [c]))

/-- A machine as `exampleEnv` whose `http.NewRequest` carries a blank of the
URL as `%20`, as parsing a URL and writing it back does. -/
def escapingEnv : Env :=
  { exampleEnv "\x7b\x7d" 200 with NewRequestURL := fun _ url => .ok (escapeBlanks url) }

/-- A transport that fails twice and then answers `200` with a JSON body. -/
def exampleTransport (i : Nat) (_request : Request) : Except Error Response :=
  if i < 3 then .error "connection reset"
  else .ok { StatusCode := 200, Body := { data := "\x7b\x7d", err := none } }

/-! ## Lemmas on strings -/

theorem HasSuffix_iff (s t : String) : HasSuffix s t = true ↔ t.data <:+ s.data := by
  unfold HasSuffix
  simp only [Bool.and_eq_true, decide_eq_true_eq, beq_iff_eq, String.length]
  constructor
  · rintro ⟨_, h⟩
    rw [← h]
    exact List.drop_suffix _ _
  · rintro ⟨p, hp⟩
    have hlen : s.data.length = p.length + t.data.length := by
      rw [← hp, List.length_append]
    refine ⟨by omega, ?_⟩
    have hk : s.data.length - t.data.length = p.length := by omega
    rw [hk, ← hp, List.drop_left]

theorem HasSuffix_append_self (b t : String) : HasSuffix (b ++ t) t = true := by
  rw [HasSuffix_iff, String.data_append]
  exact List.suffix_append _ _

theorem HasSuffix_slash_of_two (b : String) (h : HasSuffix b "//" = true) :
    HasSuffix b "/" = true := by
  rw [HasSuffix_iff] at h ⊢
  exact List.IsSuffix.trans ⟨['/'], rfl⟩ h

theorem HasSuffix_two_append_slash (b : String) :
    HasSuffix (b ++ "/") "//" = HasSuffix b "/" := by
  rw [Bool.eq_iff_iff, HasSuffix_iff, HasSuffix_iff, String.data_append]
  constructor
  · rintro ⟨p, hp⟩
    refine ⟨p, ?_⟩
    have h2 : (p ++ ['/']) ++ ['/'] = b.data ++ ['/'] := by
      rw [← hp]; simp
    exact List.append_cancel_right h2
  · rintro ⟨p, hp⟩
    refine ⟨p, ?_⟩
    rw [← hp]; simp

theorem endsWithExactlyOneSlash_iff (s : String) :
    EndsWithExactlyOneSlash s ↔
      ∃ p : List Char, s.data = p ++ ['/'] ∧ p.getLast? ≠ some '/' := by
  unfold EndsWithExactlyOneSlash
  rw [← Bool.not_eq_true, HasSuffix_iff, HasSuffix_iff]
  constructor
  · rintro ⟨⟨p, hp⟩, h2⟩
    refine ⟨p, hp.symm, ?_⟩
    intro hl
    obtain ⟨q, rfl⟩ := List.getLast?_eq_some_iff.mp hl
    exact h2 ⟨q, by rw [← hp]; simp⟩
  · rintro ⟨p, hp, hl⟩
    refine ⟨⟨p, hp.symm⟩, ?_⟩
    rintro ⟨q, hq⟩
    apply hl
    have h2 : (q ++ ['/']) ++ ['/'] = p ++ ['/'] := by
      rw [← hp, ← hq]; simp
    rw [← List.append_cancel_right h2]
    simp

theorem ciBaseURL_of_suffix (b : String) (h : HasSuffix b "/" = true) :
    main.ciBaseURL b = b := by
  simp [main.ciBaseURL, h]

theorem ciBaseURL_of_not_suffix (b : String) (h : HasSuffix b "/" = false) :
    main.ciBaseURL b = b ++ "/" := by
  simp [main.ciBaseURL, h]

theorem ciBaseURL_hasSuffix (b : String) : HasSuffix (main.ciBaseURL b) "/" = true := by
  cases h : HasSuffix b "/"
  · rw [ciBaseURL_of_not_suffix b h]; exact HasSuffix_append_self b "/"
  · rw [ciBaseURL_of_suffix b h]; exact h

/-! ## The status payload -/

/-- C1: for every status string handed to `SetBuildStatus` the `State` of the
request body is `SUCCESSFUL` for `succeeded`, `FAILED` for `failed`,
`INPROGRESS` for `pending` and `SUCCESSFUL` for every other string, the empty
string and `Failed` among them. So the state is always one of the three codes
and never empty, and it is not the input of the caller passed through: it equals
the input only when the input is itself the text of the default code. -/
theorem SetBuildStatus_state_codes (flags : Flags)
    (repoFullname status releaseName releaseAction : String) :
    (status = "succeeded" →
      (SetBuildStatus.params flags repoFullname status releaseName releaseAction).State
        = "SUCCESSFUL") ∧
    (status = "failed" →
      (SetBuildStatus.params flags repoFullname status releaseName releaseAction).State
        = "FAILED") ∧
    (status = "pending" →
      (SetBuildStatus.params flags repoFullname status releaseName releaseAction).State
        = "INPROGRESS") ∧
    (status ≠ "succeeded" → status ≠ "failed" → status ≠ "pending" →
      (SetBuildStatus.params flags repoFullname status releaseName releaseAction).State
        = "SUCCESSFUL") ∧
    (SetBuildStatus.params flags repoFullname "" releaseName releaseAction).State
      = "SUCCESSFUL" ∧
    (SetBuildStatus.params flags repoFullname "Failed" releaseName releaseAction).State
      = "SUCCESSFUL" ∧
    (SetBuildStatus.params flags repoFullname status releaseName releaseAction).State
      ∈ ["SUCCESSFUL", "FAILED", "INPROGRESS"] ∧
    (SetBuildStatus.params flags repoFullname status releaseName releaseAction).State ≠ "" ∧
    ((SetBuildStatus.params flags repoFullname status releaseName releaseAction).State
        = status → status = "SUCCESSFUL") := by
  simp only [SetBuildStatus.params]
  refine ⟨?_, ?_, ?_, ?_, by decide, by decide, ?_, ?_, ?_⟩
  · rintro rfl; rfl
  · rintro rfl; rfl
  · rintro rfl; rfl
  · intro h1 h2 h3
    unfold SetBuildStatus.state
    split <;> simp_all
  · unfold SetBuildStatus.state
    split <;> simp
  · unfold SetBuildStatus.state
    split <;> decide
  · intro h
    unfold SetBuildStatus.state at h
    split at h <;> simp_all

/-- C2: the `Description` of the request body is `Build version v s.` when the
release name is empty, whatever the release action is; `Release v to n s.` when
the release name `n` is not empty and the release action is; and
`Release v to n with a s.` when neither is empty. Here `v` is the build version
flag, which `main` also passes as the build version argument, and `s` is the
effective status string itself, not the mapped state code. -/
theorem SetBuildStatus_description_format (flags : Flags)
    (repoFullname s n a : String) :
    (n = "" →
      (SetBuildStatus.params flags repoFullname s n a).Description
        = "Build version " ++ flags.ziplineeBuildVersion ++ " " ++ s ++ ".") ∧
    (n ≠ "" → a = "" →
      (SetBuildStatus.params flags repoFullname s n a).Description
        = "Release " ++ flags.ziplineeBuildVersion ++ " to " ++ n ++ " " ++ s ++ ".") ∧
    (n ≠ "" → a ≠ "" →
      (SetBuildStatus.params flags repoFullname s n a).Description
        = "Release " ++ flags.ziplineeBuildVersion ++ " to " ++ n ++ " with " ++ a ++ " "
          ++ s ++ ".") ∧
    (flags.ziplineeBuildVersion = "1.2.3" →
      (SetBuildStatus.params flags repoFullname "pending" "production" "rollback").Description
        = "Release 1.2.3 to production with rollback pending." ∧
      (SetBuildStatus.params flags repoFullname "pending" "production" "rollback").State
        = "INPROGRESS") := by
  simp only [SetBuildStatus.params, SetBuildStatus.description]
  refine ⟨?_, ?_, ?_, ?_⟩
  · rintro rfl; simp
  · rintro hn rfl; simp [hn]
  · intro hn ha; simp [hn, ha]
  · intro hv
    rw [hv]
    exact ⟨by decide, by decide⟩

/-- C3: the status `main` hands to `SetBuildStatus` is the status override when
that is not empty, whatever its value, and the build status when the override
is empty: whenever `main` gets as far as the call, its run is the run of
`SetBuildStatus` on that status. -/
theorem main_hands_effective_status (env : Env) (flags : Flags)
    (c : APITokenCredentials) (cs : List APITokenCredentials)
    (hc : main.credentials env (main.apiTokenPath env flags) = .ok (c :: cs)) :
    (flags.statusOverride ≠ "" →
      main.status flags = flags.statusOverride ∧
      main env flags =
        main.exit (SetBuildStatus env (main.flags env flags) c.AdditionalProperties.Token
          flags.gitRepoFullname flags.gitRevision flags.statusOverride
          flags.ziplineeBuildVersion flags.releaseName flags.releaseAction)) ∧
    (flags.statusOverride = "" →
      main.status flags = flags.ziplineeBuildStatus ∧
      main env flags =
        main.exit (SetBuildStatus env (main.flags env flags) c.AdditionalProperties.Token
          flags.gitRepoFullname flags.gitRevision flags.ziplineeBuildStatus
          flags.ziplineeBuildVersion flags.releaseName flags.releaseAction)) := by
  have hmain : main env flags =
      main.exit (SetBuildStatus env (main.flags env flags) c.AdditionalProperties.Token
        flags.gitRepoFullname flags.gitRevision (main.status flags)
        flags.ziplineeBuildVersion flags.releaseName flags.releaseAction) := by
    have hc2 : main.credentials env (main.flags env flags).apiTokenPath = .ok (c :: cs) := hc
    simp only [main, hc2]
    rfl
  constructor
  · intro ho
    have hs : main.status flags = flags.statusOverride := by simp [main.status, ho]
    exact ⟨hs, by rw [hmain, hs]⟩
  · intro ho
    have hs : main.status flags = flags.ziplineeBuildStatus := by simp [main.status, ho]
    exact ⟨hs, by rw [hmain, hs]⟩

/-- Witness of C3: a run whose override `skipped` is none of the three known
statuses. -/
theorem main_hands_effective_status_witness :
    main.status { exampleFlags with statusOverride := "skipped" } = "skipped" ∧
    main (exampleEnv "ok" 200) { exampleFlags with statusOverride := "skipped" } =
      main.exit (SetBuildStatus (exampleEnv "ok" 200)
        (main.flags (exampleEnv "ok" 200) { exampleFlags with statusOverride := "skipped" })
        "t0k3n" "ziplineeci/demo" "abc123" "skipped" "1.2.3" "production" "rollback") :=
  (main_hands_effective_status (exampleEnv "ok" 200)
    { exampleFlags with statusOverride := "skipped" }
    { AdditionalProperties := { Token := "t0k3n" } } [] rfl).1 (by decide)

/-! ## The base URL -/

/-- C4, as stated, fails: a base URL that ends with two slashes is left as it
is, so the normalised URL does not end with exactly one slash. -/
theorem ciBaseURL_two_slashes :
    main.ciBaseURL "https://ci.example.com//" = "https://ci.example.com//" ∧
    ¬ EndsWithExactlyOneSlash (main.ciBaseURL "https://ci.example.com//") := by
  decide

/-- C4, amended: the normalised base URL always ends with `/`, and it ends with
exactly one `/` exactly when the given base URL does not end with `//`. -/
theorem ciBaseURL_trailing_slash (b : String) :
    HasSuffix (main.ciBaseURL b) "/" = true ∧
    (EndsWithExactlyOneSlash (main.ciBaseURL b) ↔ HasSuffix b "//" = false) := by
  refine ⟨ciBaseURL_hasSuffix b, ?_⟩
  unfold EndsWithExactlyOneSlash
  cases h : HasSuffix b "/"
  · rw [ciBaseURL_of_not_suffix b h, HasSuffix_two_append_slash, h]
    have h2 : HasSuffix b "//" = false := by
      cases h2 : HasSuffix b "//"
      · rfl
      · rw [HasSuffix_slash_of_two b h2] at h; exact absurd h (by decide)
    simp [HasSuffix_append_self, h2]
  · rw [ciBaseURL_of_suffix b h]
    simp [h]

/-- C5: normalising the base URL is idempotent; a URL that ends with `/` is
left as it is; a URL that does not, the empty one included, gets exactly one
character appended, the `/`. -/
theorem ciBaseURL_idempotent (b : String) :
    main.ciBaseURL (main.ciBaseURL b) = main.ciBaseURL b ∧
    (HasSuffix b "/" = true → main.ciBaseURL b = b) ∧
    (HasSuffix b "/" = false →
      main.ciBaseURL b = b ++ "/" ∧ (main.ciBaseURL b).length = b.length + 1) ∧
    main.ciBaseURL "" = "/" := by
  refine ⟨ciBaseURL_of_suffix _ (ciBaseURL_hasSuffix b), ciBaseURL_of_suffix b, ?_, by decide⟩
  intro h
  rw [ciBaseURL_of_not_suffix b h]
  refine ⟨rfl, ?_⟩
  rw [String.length_append]
  rfl

/-- C6: the `URL` of the request body is the base URL, `pipelines/`, the git
source, `/`, the repository full name, `/builds/`, the build id and `/logs`, in
this order; two calls that agree on these four inputs build the same URL,
however they differ in status, build version, release name and action. The
revision and the token are no input of the request body at all. -/
theorem SetBuildStatus_logs_url (flags flags2 : Flags)
    (repoFullname status releaseName releaseAction status2 releaseName2 releaseAction2 :
      String) :
    (SetBuildStatus.params flags repoFullname status releaseName releaseAction).URL
      = flags.ciBaseURL ++ "pipelines/" ++ flags.gitRepoSource ++ "/" ++ repoFullname
          ++ "/builds/" ++ flags.ziplineeBuildID ++ "/logs" ∧
    (flags2.ciBaseURL = flags.ciBaseURL → flags2.gitRepoSource = flags.gitRepoSource →
      flags2.ziplineeBuildID = flags.ziplineeBuildID →
      (SetBuildStatus.params flags2 repoFullname status2 releaseName2 releaseAction2).URL
        = (SetBuildStatus.params flags repoFullname status releaseName releaseAction).URL) := by
  refine ⟨rfl, ?_⟩
  intro hb hg hi
  simp only [SetBuildStatus.params, SetBuildStatus.logsURL, hb, hg, hi]

/-! ## The call to the Bitbucket API -/

theorem request_some (env : Env) (method url : String) (p : buildStatusRequestBody)
    (authorizationType token : String) :
    callBitbucketAPI.request env method url (some p) authorizationType token =
      match env.Marshal p, env.NewRequestURL method url with
      | .error e, _ => .error e
      | .ok _, .error e => .error e
      | .ok data, .ok u =>
        .ok ({ env.New with
                MaxRetries := 3, Backoff := .ExponentialJitterBackoff, KeepLog := true },
             { Method := method, URL := u, Body := some data,
               Header := [("Authorization", authorizationType ++ " " ++ token),
                          ("Content-Type", "application/json")] }) := by
  unfold callBitbucketAPI.request NewRequest
  cases hm : env.Marshal p <;> cases hn : env.NewRequestURL method url <;>
    simp [hm, hn, Header.Add]

theorem callBitbucketAPI_sent (env : Env) (method url : String)
    (params : Option buildStatusRequestBody) (authorizationType token : String) :
    (callBitbucketAPI env method url params authorizationType token).2.sent =
      match callBitbucketAPI.request env method url params authorizationType token with
      | .error _ => []
      | .ok (_, request) => [request] := by
  unfold callBitbucketAPI
  cases callBitbucketAPI.request env method url params authorizationType token with
  | error e => rfl
  | ok cr =>
    obtain ⟨client, request⟩ := cr
    simp only
    rcases hdo : env.Do client request with ⟨_ | response, n⟩
    · rfl
    · simp only [ReadAll]
      cases response.Body.err with
      | some e => rfl
      | none =>
        simp only
        cases env.Unmarshal response.Body.data <;> rfl

theorem callBitbucketAPI_result (env : Env) (method url : String)
    (params : Option buildStatusRequestBody) (authorizationType token : String) :
    (callBitbucketAPI env method url params authorizationType token).1 =
      match callBitbucketAPI.request env method url params authorizationType token with
      | .error e => ("", some e)
      | .ok (client, request) =>
        match (env.Do client request).1 with
        | .error e => ("", some e)
        | .ok response =>
          (response.Body.data,
            match response.Body.err with
            | some e => some e
            | none => env.Unmarshal response.Body.data) := by
  unfold callBitbucketAPI
  cases callBitbucketAPI.request env method url params authorizationType token with
  | error e => rfl
  | ok cr =>
    obtain ⟨client, request⟩ := cr
    simp only
    rcases hdo : env.Do client request with ⟨_ | response, n⟩
    · rfl
    · simp only [ReadAll]
      cases response.Body.err with
      | some e => rfl
      | none =>
        simp only
        cases env.Unmarshal response.Body.data <;> rfl

theorem callBitbucketAPI_attempts (env : Env) (method url : String)
    (params : Option buildStatusRequestBody) (authorizationType token : String) :
    (callBitbucketAPI env method url params authorizationType token).2.attempts =
      match callBitbucketAPI.request env method url params authorizationType token with
      | .error _ => 0
      | .ok (client, request) => (env.Do client request).2 := by
  unfold callBitbucketAPI
  cases callBitbucketAPI.request env method url params authorizationType token with
  | error e => rfl
  | ok cr =>
    obtain ⟨client, request⟩ := cr
    simp only
    rcases hdo : env.Do client request with ⟨_ | response, n⟩
    · rfl
    · simp only [ReadAll]
      cases response.Body.err with
      | some e => rfl
      | none =>
        simp only
        cases env.Unmarshal response.Body.data <;> rfl

theorem pester_attempt_le (transport : Nat → Request → Except Error Response)
    (request : Request) (n i : Nat) :
    (pester.attempt transport request n i).2 ≤ i + n := by
  induction n generalizing i with
  | zero => simp [pester.attempt]
  | succ n ih =>
    unfold pester.attempt
    cases transport i request with
    | ok response => simp
    | error e =>
      have h := ih (i + 1)
      simp only
      omega

theorem pester_attempt_congr (transport transport2 : Nat → Request → Except Error Response)
    (request : Request) (n i : Nat)
    (h : ∀ j, i ≤ j → j ≤ i + n → transport2 j request = transport j request) :
    pester.attempt transport2 request n i = pester.attempt transport request n i := by
  induction n generalizing i with
  | zero => simp [pester.attempt, h i (Nat.le_refl i) (Nat.le_refl i)]
  | succ n ih =>
    unfold pester.attempt
    rw [h i (Nat.le_refl i) (by omega)]
    cases transport i request with
    | ok response => rfl
    | error e =>
      simp only
      exact ih (i + 1) (fun j h1 h2 => h j (by omega) (by omega))

theorem request_client (env : Env) (method url : String)
    (params : Option buildStatusRequestBody) (authorizationType token : String)
    (client : Client) (request : Request)
    (h : callBitbucketAPI.request env method url params authorizationType token
      = .ok (client, request)) :
    client.MaxRetries = 3 := by
  unfold callBitbucketAPI.request NewRequest at h
  cases params with
  | none =>
    cases hn : env.NewRequestURL method url with
    | error e => simp [hn] at h
    | ok u =>
      simp [hn] at h
      rw [← h.1]
  | some p =>
    cases hm : env.Marshal p with
    | error e => simp [hm] at h
    | ok data =>
      cases hn : env.NewRequestURL method url with
      | error e => simp [hm, hn] at h
      | ok u =>
        simp [hm, hn] at h
        rw [← h.1]

/-- C7, as stated, fails: for the repository `team/my repo` the request handed
to the HTTP client carries the blank as `%20`, so its URL is not the string
built from the repository name and the revision. -/
theorem SetBuildStatus_request_blank :
    (SetBuildStatus escapingEnv exampleFlags "t0k3n" "team/my repo" "abc123" "failed" "1.2.3"
      "" "").2.sent.map (fun request => request.URL)
      = ["https://api.bitbucket.org/2.0/repositories/team/my%20repo/commit/abc123/statuses/build"] ∧
    (SetBuildStatus escapingEnv exampleFlags "t0k3n" "team/my repo" "abc123" "failed" "1.2.3"
      "" "").2.sent.map (fun request => request.URL)
      ≠ ["https://api.bitbucket.org/2.0/repositories/" ++ "team/my repo" ++ "/commit/"
          ++ "abc123" ++ "/statuses/build"] := by
  decide

/-- C7, amended: every request `SetBuildStatus` hands to the HTTP client has
the method `POST`; its URL is what `http.NewRequest` parses from exactly the
string made of the repositories address, the repository name, `/commit/`, the
revision and `/statuses/build`, hence that string itself whenever parsing
leaves it unchanged; its `Authorization` header is `Bearer` followed by the
token, its `Content-Type` header is `application/json`, and its body is the
JSON serialisation of the request body, whose key is `ziplinee` and whose name
is `Ziplinee`. Whenever serialising and creating the request succeed, this one
request goes to `client.Do` of the client with 3 retries: the returned error
and the number of attempts are those of `client.Do` on it. -/
theorem SetBuildStatus_request (env : Env) (flags : Flags)
    (t r v status buildVersion releaseName releaseAction : String) :
    (∀ request ∈
        (SetBuildStatus env flags t r v status buildVersion releaseName releaseAction).2.sent,
      request.Method = "POST" ∧
      env.NewRequestURL "POST"
        ("https://api.bitbucket.org/2.0/repositories/" ++ r ++ "/commit/" ++ v
          ++ "/statuses/build") = .ok request.URL ∧
      (env.NewRequestURL "POST"
        ("https://api.bitbucket.org/2.0/repositories/" ++ r ++ "/commit/" ++ v
          ++ "/statuses/build")
        = .ok ("https://api.bitbucket.org/2.0/repositories/" ++ r ++ "/commit/" ++ v
          ++ "/statuses/build") →
        request.URL
          = "https://api.bitbucket.org/2.0/repositories/" ++ r ++ "/commit/" ++ v
              ++ "/statuses/build") ∧
      request.Header.Values "Authorization" = ["Bearer " ++ t] ∧
      request.Header.Values "Content-Type" = ["application/json"] ∧
      ∃ data,
        env.Marshal (SetBuildStatus.params flags r status releaseName releaseAction)
          = .ok data ∧
        request.Body = some data) ∧
    (SetBuildStatus.params flags r status releaseName releaseAction).Key = "ziplinee" ∧
    (SetBuildStatus.params flags r status releaseName releaseAction).Name = "Ziplinee" ∧
    (∀ data u,
      env.Marshal (SetBuildStatus.params flags r status releaseName releaseAction)
        = .ok data →
      env.NewRequestURL "POST"
        ("https://api.bitbucket.org/2.0/repositories/" ++ r ++ "/commit/" ++ v
          ++ "/statuses/build") = .ok u →
      (SetBuildStatus env flags t r v status buildVersion releaseName releaseAction).2.sent
        = [{ Method := "POST", URL := u, Body := some data,
             Header := [("Authorization", "Bearer " ++ t),
                        ("Content-Type", "application/json")] }] ∧
      (SetBuildStatus env flags t r v status buildVersion releaseName releaseAction).1
        = (match
            (env.Do
              { env.New with
                MaxRetries := 3, Backoff := .ExponentialJitterBackoff, KeepLog := true }
              { Method := "POST", URL := u, Body := some data,
                Header := [("Authorization", "Bearer " ++ t),
                           ("Content-Type", "application/json")] }).1 with
          | .error e => some e
          | .ok response =>
            match response.Body.err with
            | some e => some e
            | none => env.Unmarshal response.Body.data) ∧
      (SetBuildStatus env flags t r v status buildVersion releaseName releaseAction).2.attempts
        = (env.Do
            { env.New with
              MaxRetries := 3, Backoff := .ExponentialJitterBackoff, KeepLog := true }
            { Method := "POST", URL := u, Body := some data,
              Header := [("Authorization", "Bearer " ++ t),
                         ("Content-Type", "application/json")] }).2) := by
  have hsent :
      (SetBuildStatus env flags t r v status buildVersion releaseName releaseAction).2.sent
        = (callBitbucketAPI env "POST" (SetBuildStatus.url r v)
            (some (SetBuildStatus.params flags r status releaseName releaseAction))
            "Bearer" t).2.sent := rfl
  have herr :
      (SetBuildStatus env flags t r v status buildVersion releaseName releaseAction).1
        = (callBitbucketAPI env "POST" (SetBuildStatus.url r v)
            (some (SetBuildStatus.params flags r status releaseName releaseAction))
            "Bearer" t).1.2 := rfl
  have hatt :
      (SetBuildStatus env flags t r v status buildVersion releaseName releaseAction).2.attempts
        = (callBitbucketAPI env "POST" (SetBuildStatus.url r v)
            (some (SetBuildStatus.params flags r status releaseName releaseAction))
            "Bearer" t).2.attempts := rfl
  have hurl : "https://api.bitbucket.org/2.0/repositories/" ++ r ++ "/commit/" ++ v
      ++ "/statuses/build" = SetBuildStatus.url r v := rfl
  rw [hsent, herr, hatt, hurl, callBitbucketAPI_sent, callBitbucketAPI_result,
    callBitbucketAPI_attempts, request_some]
  refine ⟨?_, rfl, rfl, ?_⟩
  · intro request hmem
    cases hm : env.Marshal (SetBuildStatus.params flags r status releaseName releaseAction) with
    | error e => simp [hm] at hmem
    | ok data =>
      cases hn : env.NewRequestURL "POST" (SetBuildStatus.url r v) with
      | error e => simp [hm, hn] at hmem
      | ok u =>
        simp only [hm, hn, List.mem_singleton] at hmem
        subst hmem
        refine ⟨rfl, rfl, ?_, ?_, ?_, data, rfl, rfl⟩
        · intro h
          exact (Except.ok.inj h)
        · simp [Header.Values, String.append_assoc]
        · simp [Header.Values]
  · intro data u hm hn
    have hb : "Bearer" ++ " " ++ t = "Bearer " ++ t := rfl
    simp only [hm, hn, hb]
    refine ⟨trivial, ?_, trivial⟩
    cases (env.Do
      { env.New with
        MaxRetries := 3, Backoff := .ExponentialJitterBackoff, KeepLog := true }
      { Method := "POST", URL := u, Body := some data,
        Header := [("Authorization", "Bearer " ++ t),
                   ("Content-Type", "application/json")] }).1 with
    | error e => rfl
    | ok response => rfl

/-- C8: when the HTTP client returns a response without error and the bytes
read from its body are not well-formed JSON, `callBitbucketAPI` returns an
error, whatever the status code of the response is, and the bytes it returns
are the body that was read; `SetBuildStatus`, which returns the error of this
call, returns an error too. -/
theorem callBitbucketAPI_malformed_body (env : Env) (method url : String)
    (params : Option buildStatusRequestBody) (authorizationType token : String)
    (client : Client) (request : Request) (response : Response) (n : Nat)
    (hreq : callBitbucketAPI.request env method url params authorizationType token
      = .ok (client, request))
    (hdo : env.Do client request = (.ok response, n))
    (hjson : env.Unmarshal response.Body.data ≠ none) :
    (callBitbucketAPI env method url params authorizationType token).1.2 ≠ none ∧
    (callBitbucketAPI env method url params authorizationType token).1.1
      = response.Body.data ∧
    (∀ (flags : Flags) (t r v status buildVersion releaseName releaseAction : String),
      method = "POST" → url = SetBuildStatus.url r v →
      params = some (SetBuildStatus.params flags r status releaseName releaseAction) →
      authorizationType = "Bearer" → token = t →
      (SetBuildStatus env flags t r v status buildVersion releaseName releaseAction).1
        ≠ none) := by
  have hres : (callBitbucketAPI env method url params authorizationType token).1
      = (response.Body.data,
          match response.Body.err with
          | some e => some e
          | none => env.Unmarshal response.Body.data) := by
    rw [callBitbucketAPI_result, hreq]
    simp only [hdo]
  have herr : (callBitbucketAPI env method url params authorizationType token).1.2 ≠ none := by
    rw [hres]
    cases response.Body.err with
    | some e => simp
    | none => exact hjson
  refine ⟨herr, by rw [hres], ?_⟩
  intro flags t r v status buildVersion releaseName releaseAction hm hu hp ha ht
  subst hm hu hp ha ht
  exact herr

/-- Witness of C8: the server answers `200` with an HTML page to the request of
a failed build. -/
theorem callBitbucketAPI_malformed_body_witness :
    (callBitbucketAPI (exampleEnv "<html>" 200) "POST"
      (SetBuildStatus.url "ziplineeci/demo" "abc123")
      (some (SetBuildStatus.params exampleFlags "ziplineeci/demo" "failed" "" ""))
      "Bearer" "t0k3n").1.1 = "<html>" ∧
    (SetBuildStatus (exampleEnv "<html>" 200) exampleFlags "t0k3n" "ziplineeci/demo" "abc123"
      "failed" "1.2.3" "" "").1 ≠ none :=
  have h := callBitbucketAPI_malformed_body (exampleEnv "<html>" 200) "POST"
    (SetBuildStatus.url "ziplineeci/demo" "abc123")
    (some (SetBuildStatus.params exampleFlags "ziplineeci/demo" "failed" "" ""))
    "Bearer" "t0k3n"
    { MaxRetries := 3, Backoff := .ExponentialJitterBackoff, KeepLog := true }
    { Method := "POST", URL := SetBuildStatus.url "ziplineeci/demo" "abc123",
      Body := some ("FAILED|ziplinee|Ziplinee|" ++
        SetBuildStatus.logsURL exampleFlags "ziplineeci/demo" ++ "|Build version 1.2.3 failed."),
      Header := [("Authorization", "Bearer t0k3n"), ("Content-Type", "application/json")] }
    { StatusCode := 200, Body := { data := "<html>", err := none } } 1 rfl rfl (by decide)
  ⟨h.2.1, h.2.2 exampleFlags "t0k3n" "ziplineeci/demo" "abc123" "failed" "1.2.3" "" ""
    rfl rfl rfl rfl rfl⟩

/-- C10: the status code of the response has no influence on what
`callBitbucketAPI` returns: the call returns no error exactly when the request
was built, the client returned a response without error, the body was read to
its end and parsed as JSON, and rewriting the status codes of the responses
changes neither the returned bytes nor the returned error; a `404` with a JSON
body is a success. `SetBuildStatus` returns no error under the same
condition. -/
theorem callBitbucketAPI_ignores_status_code (env : Env) (method url : String)
    (params : Option buildStatusRequestBody) (authorizationType token : String)
    (flags : Flags) (t r v status buildVersion releaseName releaseAction : String) :
    ((callBitbucketAPI env method url params authorizationType token).1.2 = none ↔
      ∃ client request response n,
        callBitbucketAPI.request env method url params authorizationType token
          = .ok (client, request) ∧
        env.Do client request = (.ok response, n) ∧
        response.Body.err = none ∧ env.Unmarshal response.Body.data = none) ∧
    (∀ f : Int → Int,
      (callBitbucketAPI (env.mapStatusCode f) method url params authorizationType token).1
        = (callBitbucketAPI env method url params authorizationType token).1) ∧
    (SetBuildStatus (exampleEnv "\x7b\x7d" 404) exampleFlags "t0k3n" "ziplineeci/demo" "abc123"
      "failed" "1.2.3" "" "").1 = none ∧
    ((SetBuildStatus env flags t r v status buildVersion releaseName releaseAction).1 = none ↔
      ∃ client request response n,
        callBitbucketAPI.request env "POST" (SetBuildStatus.url r v)
          (some (SetBuildStatus.params flags r status releaseName releaseAction)) "Bearer" t
          = .ok (client, request) ∧
        env.Do client request = (.ok response, n) ∧
        response.Body.err = none ∧ env.Unmarshal response.Body.data = none) := by
  have key : ∀ (method url : String) (params : Option buildStatusRequestBody)
      (authorizationType token : String),
      ((callBitbucketAPI env method url params authorizationType token).1.2 = none ↔
        ∃ client request response n,
          callBitbucketAPI.request env method url params authorizationType token
            = .ok (client, request) ∧
          env.Do client request = (.ok response, n) ∧
          response.Body.err = none ∧ env.Unmarshal response.Body.data = none) := by
    intro method url params authorizationType token
    rw [callBitbucketAPI_result]
    cases hreq : callBitbucketAPI.request env method url params authorizationType token with
    | error e => simp
    | ok cr =>
      obtain ⟨client, request⟩ := cr
      rcases hdo : env.Do client request with ⟨_ | response, n⟩
      · simp [hdo]
      · cases herr : response.Body.err with
        | some e =>
          simp only [hdo, herr]
          constructor
          · intro h; exact absurd h (by simp)
          · rintro ⟨c2, r2, resp2, n2, h1, h2, h3, _⟩
            obtain ⟨rfl, rfl⟩ := Prod.mk.inj (Except.ok.inj h1)
            rw [hdo] at h2
            have hr : response = resp2 := Except.ok.inj (Prod.mk.inj h2).1
            subst hr
            rw [herr] at h3
            exact absurd h3 (by simp)
        | none =>
          simp only [hdo, herr]
          constructor
          · intro h
            exact ⟨client, request, response, n, rfl, hdo, herr, h⟩
          · rintro ⟨c2, r2, resp2, n2, h1, h2, _, h4⟩
            obtain ⟨rfl, rfl⟩ := Prod.mk.inj (Except.ok.inj h1)
            rw [hdo] at h2
            have hr : response = resp2 := Except.ok.inj (Prod.mk.inj h2).1
            subst hr
            exact h4
  refine ⟨key method url params authorizationType token, ?_, ?_, key _ _ _ _ _⟩
  · intro f
    rw [callBitbucketAPI_result, callBitbucketAPI_result]
    have hrq : callBitbucketAPI.request (env.mapStatusCode f) method url params
        authorizationType token
        = callBitbucketAPI.request env method url params authorizationType token := rfl
    rw [hrq]
    cases callBitbucketAPI.request env method url params authorizationType token with
    | error e => rfl
    | ok cr =>
      obtain ⟨client, request⟩ := cr
      simp only [Env.mapStatusCode]
      rcases hdo : env.Do client request with ⟨_ | response, n⟩ <;> rfl
  · rfl

/-! ## Retries -/

/-- C9: over the retrying client `SetBuildStatus` makes at most 3 transport
attempts, whatever the transport answers. When attempts 1 and 2 fail and
attempt 3 brings a response whose body is read to its end and is JSON, it
returns no error after exactly 3 attempts; when attempts 1, 2 and 3 fail it
returns the error of attempt 3 after exactly 3 attempts, and what the transport
would answer to a 4th attempt changes nothing of the run. -/
theorem SetBuildStatus_three_attempts (env : Env) (flags : Flags)
    (t r v status buildVersion releaseName releaseAction : String)
    (transport : Nat → Request → Except Error Response) :
    (SetBuildStatus (env.withTransport transport) flags t r v status buildVersion releaseName
      releaseAction).2.attempts ≤ 3 ∧
    (∀ client request,
      callBitbucketAPI.request (env.withTransport transport) "POST" (SetBuildStatus.url r v)
        (some (SetBuildStatus.params flags r status releaseName releaseAction)) "Bearer" t
        = .ok (client, request) →
      (∀ e1 e2 response,
        transport 1 request = .error e1 → transport 2 request = .error e2 →
        transport 3 request = .ok response →
        response.Body.err = none → env.Unmarshal response.Body.data = none →
        (SetBuildStatus (env.withTransport transport) flags t r v status buildVersion
          releaseName releaseAction).1 = none ∧
        (SetBuildStatus (env.withTransport transport) flags t r v status buildVersion
          releaseName releaseAction).2.attempts = 3) ∧
      (∀ e1 e2 e3,
        transport 1 request = .error e1 → transport 2 request = .error e2 →
        transport 3 request = .error e3 →
        (SetBuildStatus (env.withTransport transport) flags t r v status buildVersion
          releaseName releaseAction).1 = some e3 ∧
        (SetBuildStatus (env.withTransport transport) flags t r v status buildVersion
          releaseName releaseAction).2.attempts = 3) ∧
      (∀ transport2 : Nat → Request → Except Error Response,
        (∀ i, 1 ≤ i → i ≤ 3 → transport2 i request = transport i request) →
        SetBuildStatus (env.withTransport transport2) flags t r v status buildVersion
          releaseName releaseAction
        = SetBuildStatus (env.withTransport transport) flags t r v status buildVersion
          releaseName releaseAction)) := by
  have herr : ∀ tr : Nat → Request → Except Error Response,
      (SetBuildStatus (env.withTransport tr) flags t r v status buildVersion releaseName
        releaseAction).1
      = (callBitbucketAPI (env.withTransport tr) "POST" (SetBuildStatus.url r v)
          (some (SetBuildStatus.params flags r status releaseName releaseAction))
          "Bearer" t).1.2 := fun _ => rfl
  have hatt : ∀ tr : Nat → Request → Except Error Response,
      (SetBuildStatus (env.withTransport tr) flags t r v status buildVersion releaseName
        releaseAction).2.attempts
      = (callBitbucketAPI (env.withTransport tr) "POST" (SetBuildStatus.url r v)
          (some (SetBuildStatus.params flags r status releaseName releaseAction))
          "Bearer" t).2.attempts := fun _ => rfl
  constructor
  · rw [hatt, callBitbucketAPI_attempts]
    cases hreq : callBitbucketAPI.request (env.withTransport transport) "POST"
        (SetBuildStatus.url r v)
        (some (SetBuildStatus.params flags r status releaseName releaseAction)) "Bearer" t with
    | error e => simp
    | ok cr =>
      obtain ⟨client, request⟩ := cr
      have h3 := request_client _ _ _ _ _ _ _ _ hreq
      have hle := pester_attempt_le transport request (client.MaxRetries - 1) 1
      simp only [Env.withTransport, pester.Do]
      omega
  · intro client request hreq
    have h3 := request_client _ _ _ _ _ _ _ _ hreq
    have hdo : ∀ tr : Nat → Request → Except Error Response,
        (env.withTransport tr).Do client request = pester.attempt tr request 2 1 := by
      intro tr
      simp only [Env.withTransport, pester.Do, h3]
    refine ⟨?_, ?_, ?_⟩
    · intro e1 e2 response h1 h2 h3 hread hjson
      have hrun : pester.attempt transport request 2 1 = (.ok response, 3) := by
        simp [pester.attempt, h1, h2, h3]
      rw [herr, hatt, callBitbucketAPI_result, callBitbucketAPI_attempts, hreq]
      simp only [hdo, hrun, hread]
      exact ⟨hjson, trivial⟩
    · intro e1 e2 e3 h1 h2 h3
      have hrun : pester.attempt transport request 2 1 = (.error e3, 3) := by
        simp [pester.attempt, h1, h2, h3]
      rw [herr, hatt, callBitbucketAPI_result, callBitbucketAPI_attempts, hreq]
      simp only [hdo, hrun]
      exact ⟨trivial, trivial⟩
    · intro transport2 hagree
      have hsame : (env.withTransport transport2).Do client request
          = (env.withTransport transport).Do client request := by
        rw [hdo, hdo]
        exact pester_attempt_congr transport transport2 request 2 1
          (fun j h1 h2 => hagree j h1 (by omega))
      have hreq2 : callBitbucketAPI.request (env.withTransport transport2) "POST"
          (SetBuildStatus.url r v)
          (some (SetBuildStatus.params flags r status releaseName releaseAction)) "Bearer" t
          = .ok (client, request) := hreq
      have hcall : callBitbucketAPI (env.withTransport transport2) "POST"
          (SetBuildStatus.url r v)
          (some (SetBuildStatus.params flags r status releaseName releaseAction)) "Bearer" t
          = callBitbucketAPI (env.withTransport transport) "POST" (SetBuildStatus.url r v)
          (some (SetBuildStatus.params flags r status releaseName releaseAction)) "Bearer" t := by
        unfold callBitbucketAPI
        rw [hreq, hreq2]
        simp only [hsame]
        rfl
      unfold SetBuildStatus
      simp only [hcall]

/-- Witness of C9: two failed attempts, then a response with a JSON body. -/
theorem SetBuildStatus_three_attempts_witness :
    (SetBuildStatus ((exampleEnv "" 0).withTransport exampleTransport) exampleFlags "t0k3n"
      "ziplineeci/demo" "abc123" "failed" "1.2.3" "" "").1 = none ∧
    (SetBuildStatus ((exampleEnv "" 0).withTransport exampleTransport) exampleFlags "t0k3n"
      "ziplineeci/demo" "abc123" "failed" "1.2.3" "" "").2.attempts = 3 :=
  ((SetBuildStatus_three_attempts (exampleEnv "" 0) exampleFlags "t0k3n" "ziplineeci/demo"
    "abc123" "failed" "1.2.3" "" "" exampleTransport).2 _ _ rfl).1
    "connection reset" "connection reset"
    { StatusCode := 200, Body := { data := "\x7b\x7d", err := none } } rfl rfl rfl rfl rfl

end Ziplinee
